import Mathlib

/-!
Verification of the snjs client sync core against its specification.

The definitions below are a shallow embedding of the repository's source:

* `lib/services/sync/sync_manager.js` — the sync state machine,
  `computeDataIntegrityHash`, `handleNeverSyncedDeleted`;
* the item layer (`SNItem`, `ItemMutator`, `strategyWhenConflictingWithItem`);
* `packages/snjs/lib/protocol/payloads/deltas/remote_rejected.ts`;
* `packages/snjs/lib/services/migration_service.ts` (migration service and
  key recovery service);
* the session manager (`register`, `signIn`).

JavaScript `Date` values are modelled as `Nat` milliseconds since the epoch
(the resolution a `Date` actually stores; `Date.getTime()` returns this
number).  Fallible code is modelled with `Except`/`Option`.  Helpers whose
source is not part of the repository snapshot are modelled from the
specification and say so in their doc comment.
-/

namespace Snjs

/-- A content reference entry (an element of `content.references`). -/
structure Ref where
  uuid : String
  content_type : String
deriving DecidableEq

/-- Default app domain, `SNItem.DefaultAppDomain()` in the item layer. -/
def defaultAppDomain : String := "org.standardnotes.sn"

/-- Key of the user-modified date inside app data (`UserModifiedDateKey`). -/
def userModifiedDateKey : String := "client_updated_at"

/--
Decrypted item content.  `references` is the reference array; `appData` maps a
domain string to its record (the default domain holds keys such as
`client_updated_at`); `fields` holds the remaining top-level content keys
(`title`, `conflict_of`, ...) as string key/value pairs.
-/
structure ItemContent where
  references : List Ref
  appData : List (String × List (String × String))
  fields : List (String × String)
deriving DecidableEq

/-- The empty content object. -/
def emptyContent : ItemContent := ⟨[], [], []⟩

/--
The "max" payload variant carrying every field (`PurePayload`).  Timestamps
are `Nat` milliseconds; optional bookkeeping dates are `Option Nat`.
-/
structure PurePayload where
  uuid : String := ""
  content_type : String := ""
  content : Option ItemContent := none
  deleted : Bool := false
  dirty : Bool := false
  dirtiedDate : Option Nat := none
  lastSyncBegan : Option Nat := none
  lastSyncEnd : Option Nat := none
  errorDecrypting : Bool := false
  waitingForKey : Bool := false
  updated_at : Nat := 0
deriving DecidableEq

/--
An item is a typed read-only view over a payload (`SNItem`).  `isSingleton`
stands for the subclass override (`false` in the base class, `true` for
e.g. `SNPrivileges`).
-/
structure SNItem where
  payload : PurePayload
  isSingleton : Bool := false
deriving DecidableEq

/-- `SNItem.updatedAtTimestamp()`: `this.updated_at?.getTime()`, i.e. the
millisecond timestamp of the server-authoritative update date. -/
def SNItem.updatedAtTimestamp (i : SNItem) : Nat :=
  i.payload.updated_at

/-- `SNItem.neverSynced`: `!this.updated_at || this.updated_at.getTime() === 0`. -/
def SNItem.neverSynced (i : SNItem) : Bool :=
  i.payload.updated_at == 0

/-- The content object of an item, `{}` when content is absent. -/
def SNItem.contentObject (i : SNItem) : ItemContent :=
  i.payload.content.getD emptyContent

/-- Drop the pairs whose key is listed in `ks`. -/
def omitKeys (l : List (String × String)) (ks : List String) : List (String × String) :=
  l.filter (fun e => !(ks.contains e.1))

/-- Drop the listed keys from the default app domain's record. -/
def omitAppDataKeys (ad : List (String × List (String × String))) (ks : List String) :
    List (String × List (String × String)) :=
  ad.map (fun e => if e.1 == defaultAppDomain then (e.1, omitKeys e.2 ks) else e)

/--
Modelled from the spec: content equality "ignores keys listed by
`contentKeysToIgnoreWhenCheckingEquality` (e.g. `conflict_of`) and app-domain
keys listed by `appDataContentKeysToIgnoreWhenCheckingEquality` (e.g.
`client_updated_at`)" (`ItemContentsEqual` of `@Models/core/functions`, whose
source file is not in the snapshot).  The ignored content keys are omitted
from the top-level comparison (omitting `references` skips the reference
array comparison) and the ignored app-data keys are omitted from the default
domain's record.
-/
def ItemContentsEqualFn (a b : ItemContent)
    (keysToIgnore appDataKeysToIgnore : List String) : Bool :=
  (keysToIgnore.contains "references" || a.references == b.references) &&
    omitKeys a.fields keysToIgnore == omitKeys b.fields keysToIgnore &&
    omitAppDataKeys a.appData appDataKeysToIgnore ==
      omitAppDataKeys b.appData appDataKeysToIgnore

/-- `SNItem.contentKeysToIgnoreWhenCheckingEquality()` (item layer source). -/
def contentKeysToIgnoreWhenCheckingEquality : List String := ["conflict_of"]

/-- `SNItem.appDataContentKeysToIgnoreWhenCheckingEquality()` (item layer source). -/
def appDataContentKeysToIgnoreWhenCheckingEquality : List String := [userModifiedDateKey]

/--
Modelled from the spec: `ItemContentsDiffer(item1, item2, excludeContentKeys)`
(`@Models/core/functions`, not in the snapshot) — negation of content
equality with the item's standard ignore lists extended by
`excludeContentKeys`.
-/
def ItemContentsDiffer (a b : SNItem) (excludeContentKeys : List String) : Bool :=
  !(ItemContentsEqualFn a.contentObject b.contentObject
    (contentKeysToIgnoreWhenCheckingEquality ++ excludeContentKeys)
    appDataContentKeysToIgnoreWhenCheckingEquality)

/-- The conflict strategies (`ConflictStrategies` of the payload layer). -/
inductive ConflictStrategy where
  | KeepLeft
  | KeepRight
  | KeepLeftDuplicateRight
  | KeepRightDuplicateLeft
  | KeepLeftMergeRefs
deriving DecidableEq

/--
`SNItem.strategyWhenConflictingWithItem(item)` from the item layer source:
locally errored items duplicate the incoming copy; singletons keep left;
deletion on either side or equal contents keep right; a pure reference-array
difference merges refs; any other difference duplicates the incoming copy.
-/
def strategyWhenConflictingWithItem (this item : SNItem) : ConflictStrategy :=
  if this.payload.errorDecrypting then
    .KeepLeftDuplicateRight
  else if this.isSingleton then
    .KeepLeft
  else if this.payload.deleted || item.payload.deleted then
    .KeepRight
  else if !(ItemContentsDiffer this item []) then
    .KeepRight
  else if ItemContentsDiffer this item ["references"] then
    .KeepLeftDuplicateRight
  else
    .KeepLeftMergeRefs

/-!
SHA-256, per FIPS 180-4.  `protocolService.crypto.sha256` is an external
collaborator of the sync manager; the hash itself is a published standard, so
it is embedded directly.  Words are `Nat` reduced mod `2^32`.
-/

namespace Sha256

/-- `2^32`, the word modulus. -/
def wordMod : Nat := 4294967296

/-- Addition mod `2^32`. -/
def add32 (a b : Nat) : Nat := (a + b) % wordMod

/-- Right rotation of a 32-bit word by `n`. -/
def rotr (n x : Nat) : Nat := ((x >>> n) ||| (x <<< (32 - n))) % wordMod

/-- Bitwise complement of a 32-bit word. -/
def not32 (x : Nat) : Nat := x ^^^ 4294967295

/-- The `Ch` function of FIPS 180-4. -/
def ch (x y z : Nat) : Nat := (x &&& y) ^^^ (not32 x &&& z)

/-- The `Maj` function of FIPS 180-4. -/
def maj (x y z : Nat) : Nat := (x &&& y) ^^^ (x &&& z) ^^^ (y &&& z)

/-- `Σ0` of FIPS 180-4. -/
def bigSigma0 (x : Nat) : Nat := rotr 2 x ^^^ rotr 13 x ^^^ rotr 22 x

/-- `Σ1` of FIPS 180-4. -/
def bigSigma1 (x : Nat) : Nat := rotr 6 x ^^^ rotr 11 x ^^^ rotr 25 x

/-- `σ0` of FIPS 180-4. -/
def smallSigma0 (x : Nat) : Nat := rotr 7 x ^^^ rotr 18 x ^^^ (x >>> 3)

/-- `σ1` of FIPS 180-4. -/
def smallSigma1 (x : Nat) : Nat := rotr 17 x ^^^ rotr 19 x ^^^ (x >>> 10)

/-- The 64 round constants (decimal values of the FIPS 180-4 table). -/
def K : List Nat :=
  [ 1116352408, 1899447441, 3049323471, 3921009573,
    961987163, 1508970993, 2453635748, 2870763221,
    3624381080, 310598401, 607225278, 1426881987,
    1925078388, 2162078206, 2614888103, 3248222580,
    3835390401, 4022224774, 264347078, 604807628,
    770255983, 1249150122, 1555081692, 1996064986,
    2554220882, 2821834349, 2952996808, 3210313671,
    3336571891, 3584528711, 113926993, 338241895,
    666307205, 773529912, 1294757372, 1396182291,
    1695183700, 1986661051, 2177026350, 2456956037,
    2730485921, 2820302411, 3259730800, 3345764771,
    3516065817, 3600352804, 4094571909, 275423344,
    430227734, 506948616, 659060556, 883997877,
    958139571, 1322822218, 1537002063, 1747873779,
    1955562222, 2024104815, 2227730452, 2361852424,
    2428436474, 2756734187, 3204031479, 3329325298 ]

/-- Initial hash state (decimal values of the FIPS 180-4 table). -/
def H0 : List Nat :=
  [ 1779033703, 3144134277, 1013904242, 2773480762,
    1359893119, 2600822924, 528734635, 1541459225 ]

/-- Message padding: append `0x80`, zeros, and the 64-bit big-endian bit length. -/
def padBytes (msg : List Nat) : List Nat :=
  let len := msg.length
  let zeros := (119 - len % 64) % 64
  let bitLen := len * 8
  msg ++ [0x80] ++ List.replicate zeros 0 ++
    (List.range 8).map (fun i => (bitLen >>> ((7 - i) * 8)) &&& 255)

/-- Group a padded byte list into big-endian 32-bit words. -/
def bytesToWords : List Nat → List Nat
  | b0 :: b1 :: b2 :: b3 :: rest =>
    (((b0 * 256 + b1) * 256 + b2) * 256 + b3) :: bytesToWords rest
  | _ => []

/-- Group a word list into 16-word blocks (`fuel` bounds the recursion so the
definition is structural and kernel-reducible). -/
def toBlocksAux : Nat → List Nat → List (List Nat)
  | 0, _ => []
  | fuel + 1, ws =>
    if ws.length < 16 then []
    else ws.take 16 :: toBlocksAux fuel (ws.drop 16)

/-- Group a word list into 16-word blocks. -/
def toBlocks (ws : List Nat) : List (List Nat) :=
  toBlocksAux ws.length ws

/-- Extend a 16-word block to the 64-entry message schedule. -/
def extendSchedule (block : List Nat) : List Nat :=
  let w := (List.range 48).foldl
    (fun w i =>
      let t := i + 16
      w.push (add32
        (add32 (smallSigma1 (w.getD (t - 2) 0)) (w.getD (t - 7) 0))
        (add32 (smallSigma0 (w.getD (t - 15) 0)) (w.getD (t - 16) 0))))
    block.toArray
  w.toList

/-- One compression round on the eight-word working state. -/
def roundFn (st : List Nat) (kw : Nat) : List Nat :=
  match st with
  | [a, b, c, d, e, f, g, h] =>
    let t1 := add32 h (add32 (bigSigma1 e) (add32 (ch e f g) kw))
    let t2 := add32 (bigSigma0 a) (maj a b c)
    [add32 t1 t2, a, b, c, add32 d t1, e, f, g]
  | other => other

/-- Compress one block into the hash state. -/
def compress (hs : List Nat) (block : List Nat) : List Nat :=
  let schedule := extendSchedule block
  let kw := List.zipWith add32 K schedule
  let final := kw.foldl roundFn hs
  List.zipWith add32 hs final

/-- Digest of a byte list, as eight 32-bit words. -/
def digestWords (msg : List Nat) : List Nat :=
  (toBlocks (bytesToWords (padBytes msg))).foldl compress H0

/-- A hex digit. -/
def hexChar (n : Nat) : Char := "0123456789abcdef".toList.getD n '0'

/-- A 32-bit word as eight lowercase hex characters. -/
def wordToHex (w : Nat) : String :=
  String.mk ((List.range 8).map (fun i => hexChar ((w >>> ((7 - i) * 4)) &&& 15)))

/-- SHA-256 of a string, as a lowercase hex digest — the shape
`crypto.sha256` returns to the sync manager.  Bytes are taken as the
characters' code points, which coincides with the UTF-8 encoding on the
ASCII strings (digits and commas) the integrity hash is computed over. -/
def sha256 (s : String) : String :=
  String.join ((digestWords (s.toList.map (fun c => c.toNat))).map wordToHex)

end Sha256

/-!
Sync manager (`lib/services/sync/sync_manager.js`).
-/

namespace SyncManager

/-- `TIMING_STRATEGY_RESOLVE_ON_NEXT`. -/
def TIMING_STRATEGY_RESOLVE_ON_NEXT : Nat := 1

/-- `TIMING_STRATEGY_FORCE_SPAWN_NEW`. -/
def TIMING_STRATEGY_FORCE_SPAWN_NEW : Nat := 2

/-- `SYNC_MODE_DEFAULT`. -/
def SYNC_MODE_DEFAULT : Nat := 1

/-- `SYNC_MODE_INITIAL`. -/
def SYNC_MODE_INITIAL : Nat := 2

/-- The sync events the manager emits (`SyncEvents`). -/
inductive SyncEvent where
  | SyncError
  | InvalidSession
  | SingleSyncCompleted
  | FullSyncCompleted
  | InitialSyncCompleted
deriving DecidableEq

/-- The manager state consulted by `sync()` before running an operation. -/
structure SyncConfig where
  locked : Bool := false
  databaseLoaded : Bool := true
  syncInProgress : Bool := false
  completedInitialSync : Bool := true
  online : Bool := true
  /-- `some status` when the server answers with an error response of that
  HTTP status, `none` on a success response. -/
  serverErrorStatus : Option Nat := none
deriving DecidableEq

/-- What a call to `sync()` amounted to. -/
inductive SyncOutcome where
  /-- `this.locked` was set: log and return. -/
  | lockedNoop
  /-- A sync was already in progress (or the database not loaded): the call
  was queued under the given timing strategy. -/
  | queued (strategy : Nat)
  /-- The operation ran: `uploaded` are the payloads handed to the sync
  operation, `cleared` the never-synced deleted payloads re-emitted with
  `dirty=false` by `handleNeverSyncedDeleted`, `events` the emitted events. -/
  | completed (uploaded : List PurePayload) (cleared : List PurePayload)
      (events : List SyncEvent)
deriving DecidableEq

/-- `INVALID_SESSION_RESPONSE_STATUS`. -/
def INVALID_SESSION_RESPONSE_STATUS : Nat := 401

/-- Events produced while handling the operation's response
(`handleErrorServerResponse` / `handleSuccessServerResponse`): error
responses are captured and surfaced as events, not thrown. -/
def responseEvents (cfg : SyncConfig) : List SyncEvent :=
  match cfg.serverErrorStatus with
  | some status =>
    (if status == INVALID_SESSION_RESPONSE_STATUS then [SyncEvent.InvalidSession] else [])
      ++ [SyncEvent.SyncError]
  | none => [SyncEvent.SingleSyncCompleted]

/-- Message of the `throw` at the unhandled-timing-strategy branch. -/
def unhandledTimingStrategyMsg : String := "Unhandled timing strategy"

/-- Message of the `throw` guarding default-mode syncs. -/
def defaultBeforeInitialMsg : String :=
  "Attempting to default mode sync without having completed initial."

/--
`sync({ timingStrategy, mode, checkIntegrity })`, lines 338-472 of the sync
manager.  Pre-flight partitions the dirty items: never-synced deleted items
are subtracted and never uploaded; in default mode the remaining dirty
payloads are handed to the operation, in initial mode nothing is uploaded.
The two `throw` statements of the source surface as `Except.error`.
-/
def sync (cfg : SyncConfig) (items : List SNItem)
    (timingStrategy mode : Option Nat) : Except String SyncOutcome :=
  if cfg.locked then .ok .lockedNoop
  else
    let dirtyItems := items.filter (fun i => i.payload.dirty)
    let neverSyncedDeleted :=
      dirtyItems.filter (fun i => i.neverSynced && i.payload.deleted)
    let remaining :=
      dirtyItems.filter (fun i => !(i.neverSynced && i.payload.deleted))
    let useStrategy := timingStrategy.getD TIMING_STRATEGY_RESOLVE_ON_NEXT
    if cfg.syncInProgress || !cfg.databaseLoaded then
      if useStrategy == TIMING_STRATEGY_RESOLVE_ON_NEXT then
        .ok (.queued useStrategy)
      else if useStrategy == TIMING_STRATEGY_FORCE_SPAWN_NEW then
        .ok (.queued useStrategy)
      else
        .error unhandledTimingStrategyMsg
    else
      let useMode := mode.getD SYNC_MODE_DEFAULT
      if useMode == SYNC_MODE_DEFAULT && !cfg.completedInitialSync then
        .error defaultBeforeInitialMsg
      else
        let uploadPayloads :=
          if useMode == SYNC_MODE_DEFAULT then remaining.map (fun i => i.payload)
          else []
        let cleared :=
          neverSyncedDeleted.map (fun i => { i.payload with dirty := false })
        .ok (.completed uploadPayloads cleared
          (responseEvents cfg ++ [SyncEvent.FullSyncCompleted]))

/-- Descending comparison on `updated_at`, the JS comparator
`(a, b) => b.updated_at - a.updated_at`. -/
def integrityItemLe (a b : SNItem) : Bool :=
  b.payload.updated_at ≤ a.payload.updated_at

/-- The string `computeDataIntegrityHash` feeds to `crypto.sha256`: the
comma-join of the `updatedAtTimestamp()` millisecond values of the
non-deleted items, sorted in descending `updated_at` order. -/
def computeDataIntegrityHashInput (items : List SNItem) : String :=
  let nonDeleted := items.filter (fun i => !i.payload.deleted)
  let sorted := List.insertionSort (fun a b => integrityItemLe a b = true) nonDeleted
  let dates := sorted.map SNItem.updatedAtTimestamp
  String.intercalate "," (dates.map (fun d => toString d))

/-- `computeDataIntegrityHash()`, lines 660-672 of the sync manager. -/
def computeDataIntegrityHash (items : List SNItem) : String :=
  Sha256.sha256 (computeDataIntegrityHashInput items)

/-- Modelled from the spec: the hash the spec claims — "SHA-256 over the
comma-join of `updated_at` microsecond strings of non-deleted items in
descending `updated_at` order".  The microsecond expression of a `Date`
holding `d` milliseconds is `d * 1000`. -/
def specIntegrityHashInput (items : List SNItem) : String :=
  let nonDeleted := items.filter (fun i => !i.payload.deleted)
  let ts := List.insertionSort (fun a b : Nat => b ≤ a)
    (nonDeleted.map SNItem.updatedAtTimestamp)
  String.intercalate "," (ts.map (fun d => toString (d * 1000)))

/-- Modelled from the spec: the integrity digest as the spec describes it. -/
def specIntegrityHash (items : List SNItem) : String :=
  Sha256.sha256 (specIntegrityHashInput items)

end SyncManager

/-!
Payload collections, the payload manager's ignored-key rule, and the key
recovery service's undecryptable-items record
(`packages/snjs/lib/services/migration_service.ts`, key recovery part).
-/

/-- Payload sources (`PayloadSource`). -/
inductive PayloadSource where
  | RemoteRetrieved
  | RemoteSaved
  | RemoteRejected
  | DecryptedTransient
  | LocalChanged
  | LocalRetrieved
deriving DecidableEq

/-- A collection of payloads keyed by uuid. -/
structure Collection where
  payloads : List PurePayload
deriving DecidableEq

/-- Look a payload up by uuid. -/
def Collection.findPayload (c : Collection) (uuid : String) : Option PurePayload :=
  c.payloads.find? (fun p => p.uuid == uuid)

/-- Insert or overwrite a payload by uuid. -/
def Collection.setPayload (c : Collection) (p : PurePayload) : Collection :=
  if c.payloads.any (fun q => q.uuid == p.uuid) then
    ⟨c.payloads.map (fun q => if q.uuid == p.uuid then p else q)⟩
  else
    ⟨c.payloads ++ [p]⟩

/-- `content_type` of items keys. -/
def itemsKeyContentType : String := "SN|ItemsKey"

/-- Result of one `emitPayloads` call: the updated master collection, the
merged (changed or inserted) payloads, and the ignored payloads. -/
structure EmitResult where
  collection : Collection
  merged : List PurePayload
  ignored : List PurePayload
deriving DecidableEq

/--
Modelled from the spec: the payload manager's `emitPayloads` ignored-key rule
(the payload manager source is not in the snapshot) — "for content_type
`SN|ItemsKey`, if the incoming payload has `errorDecrypting=true` and the
current copy decrypts successfully, the incoming payload is routed into
`ignored` and the master copy is preserved"; every other payload is
inserted or overlaid into the master collection.
-/
def emitPayloads (master : Collection) (incoming : List PurePayload) : EmitResult :=
  incoming.foldl
    (fun acc p =>
      let current := acc.collection.findPayload p.uuid
      let ignoreIncoming :=
        p.content_type == itemsKeyContentType && p.errorDecrypting &&
          (match current with
           | some c => !c.errorDecrypting
           | none => false)
      if ignoreIncoming then
        { acc with ignored := acc.ignored ++ [p] }
      else
        { collection := acc.collection.setPayload p
          merged := acc.merged ++ [p]
          ignored := acc.ignored })
    { collection := master, merged := [], ignored := [] }

/-- The `key_recovery_undecryptable_items` storage record,
`{[uuid]: rawPayload}`. -/
def UndecryptablesRecord : Type := List (String × PurePayload)

/-- `record[uuid] = payload`: replace the binding in place, else append. -/
def recordSet (r : List (String × PurePayload)) (uuid : String) (p : PurePayload) :
    List (String × PurePayload) :=
  match r with
  | [] => [(uuid, p)]
  | e :: rest => if e.1 == uuid then (uuid, p) :: rest else e :: recordSet rest uuid p

/-- `record[uuid]`. -/
def recordLookup (r : List (String × PurePayload)) (uuid : String) : Option PurePayload :=
  (r.find? (fun e => e.1 == uuid)).map (fun e => e.2)

/-- `SNKeyRecoveryService.saveToUndecryptables(keys)`: store each incoming
key's raw payload in the record under its uuid. -/
def saveToUndecryptables (record : List (String × PurePayload))
    (keys : List PurePayload) : List (String × PurePayload) :=
  keys.foldl (fun r k => recordSet r k.uuid k) record

/-!
`DeltaRemoteRejected`
(`packages/snjs/lib/protocol/payloads/deltas/remote_rejected.ts`).
-/

/-- A resulting collection tagged with its payload source. -/
structure SourcedCollection where
  payloads : List PurePayload
  source : PayloadSource
deriving DecidableEq

/-- The bare string thrown when no decrypted counterpart exists. -/
def noCounterpartMsg : String :=
  "Unable to find decrypted counterpart for rejected payload."

/--
The loop body of `DeltaRemoteRejected.resultingCollection`: for each rejected
payload, find the related payload of source `DecryptedTransient` (held in
`related`); missing counterpart throws the bare string, otherwise the
counterpart is re-emitted with `lastSyncEnd` set to now and `dirty=false`.
-/
def deltaRemoteRejectedResults (related : Collection) (now : Nat) :
    List PurePayload → Except String (List PurePayload)
  | [] => .ok []
  | p :: rest =>
    match related.findPayload p.uuid with
    | none => .error noCounterpartMsg
    | some decrypted =>
      match deltaRemoteRejectedResults related now rest with
      | .error e => .error e
      | .ok rs => .ok ({ decrypted with lastSyncEnd := some now, dirty := false } :: rs)

/-- `DeltaRemoteRejected.resultingCollection()`: the results wrapped in an
immutable collection of source `RemoteRejected`. -/
def deltaRemoteRejectedResultingCollection (apply : List PurePayload)
    (related : Collection) (now : Nat) : Except String SourcedCollection :=
  match deltaRemoteRejectedResults related now apply with
  | .error e => .error e
  | .ok rs => .ok ⟨rs, .RemoteRejected⟩

/-- The payload `resultingCollection` produces for one rejected payload, when
its decrypted counterpart exists (the `none` branch is never reached under
that hypothesis). -/
def rejectedCounterpart (related : Collection) (now : Nat) (p : PurePayload) :
    PurePayload :=
  match related.findPayload p.uuid with
  | some decrypted => { decrypted with lastSyncEnd := some now, dirty := false }
  | none => { p with lastSyncEnd := some now, dirty := false }

/-!
`ItemMutator` (item layer source).  `MutationType.UserInteraction` and
`MutationType.Internal` are both `1` in the source enum.
-/

namespace MutationType

/-- `MutationType.UserInteraction = 1`. -/
def UserInteraction : Nat := 1

/-- `MutationType.Internal = 1` (sic — same value as `UserInteraction`). -/
def Internal : Nat := 1

end MutationType

/-- Replace the value bound to `k` in place, else append `(k, v)` — the JS
object assignment `o[k] = v`. -/
def assocSet (l : List (String × String)) (k v : String) : List (String × String) :=
  match l with
  | [] => [(k, v)]
  | e :: rest => if e.1 == k then (k, v) :: rest else e :: assocSet rest k v

/-- Look up `k` in an association list. -/
def assocGet (l : List (String × String)) (k : String) : Option String :=
  (l.find? (fun e => e.1 == k)).map (fun e => e.2)

/-- Set `appData[domain][key] = v`, creating the domain record if missing. -/
def appDataSet (ad : List (String × List (String × String))) (domain k v : String) :
    List (String × List (String × String)) :=
  match ad with
  | [] => [(domain, [(k, v)])]
  | e :: rest =>
    if e.1 == domain then (domain, assocSet e.2 k v) :: rest
    else e :: appDataSet rest domain k v

/-- Look up `appData[DefaultAppDomain][key]` on an item
(`SNItem.getAppDomainValue`). -/
def itemGetAppDomainValue (i : SNItem) (key : String) : Option String :=
  match i.contentObject.appData.find? (fun e => e.1 == defaultAppDomain) with
  | some e => assocGet e.2 key
  | none => none

/-- The mutator's working state: the item it was built from, the mutation
source, the (copied) payload and the working copy of the content. -/
structure ItemMutator where
  item : SNItem
  source : Nat
  payload : PurePayload
  content : Option ItemContent
deriving DecidableEq

/-- The `ItemMutator` constructor: keep the item, copy its payload and a
working copy of its content. -/
def ItemMutator.init (item : SNItem) (source : Nat) : ItemMutator :=
  ⟨item, source, item.payload, item.payload.content⟩

/-- A content update applied to the mutator's working copy.  The source
reads `this.content!`; with no content the update has nothing to act on. -/
def ItemMutator.mapContent (m : ItemMutator) (f : ItemContent → ItemContent) :
    ItemMutator :=
  match m.content with
  | some c => { m with content := some (f c) }
  | none => m

/-- `ItemMutator.setDomainDataKey(key, value, domain)`: no-op on payloads
that failed to decrypt, otherwise `appData[domain][key] = value`. -/
def ItemMutator.setDomainDataKey (m : ItemMutator) (key v domain : String) :
    ItemMutator :=
  if m.payload.errorDecrypting then m
  else m.mapContent (fun c => { c with appData := appDataSet c.appData domain key v })

/-- `ItemMutator.setAppDataItem(key, value)`. -/
def ItemMutator.setAppDataItem (m : ItemMutator) (key v : String) : ItemMutator :=
  m.setDomainDataKey key v defaultAppDomain

/-- The mutations a caller may apply through the mutator's setters. -/
inductive Mutation where
  /-- `setDeleted()`: clear the content and copy the payload with
  `deleted=true`. -/
  | setDeleted
  /-- The `lastSyncBegan` setter. -/
  | setLastSyncBegan (d : Nat)
  /-- The `protected` setter (a plain content field). -/
  | setProtectedFlag (b : Bool)
  /-- The `trashed` setter (a plain content field). -/
  | setTrashed (b : Bool)
  /-- The `pinned` setter (app data). -/
  | setPinned (b : Bool)
  /-- The `archived` setter (app data). -/
  | setArchived (b : Bool)
  /-- The `locked` setter (app data). -/
  | setLocked (b : Bool)
  /-- `setDomainDataKey(key, value, domain)`. -/
  | setDomainDataKey (key v domain : String)
  /-- `setAppDataItem(key, value)`. -/
  | setAppDataItem (key v : String)
  /-- `addItemAsRelationship(item)`. -/
  | addItemAsRelationship (r : Ref)
  /-- `removeItemAsRelationship(item)`. -/
  | removeItemAsRelationship (uuid : String)

/-- Apply one mutation to the mutator state (each setter of the source). -/
def applyMutation (m : ItemMutator) : Mutation → ItemMutator
  | .setDeleted =>
    { m with content := none
             payload := { m.payload with content := none, deleted := true } }
  | .setLastSyncBegan d =>
    { m with payload :=
        { m.payload with content := m.content, lastSyncBegan := some d } }
  | .setProtectedFlag b =>
    m.mapContent (fun c => { c with fields := assocSet c.fields "protected" (toString b) })
  | .setTrashed b =>
    m.mapContent (fun c => { c with fields := assocSet c.fields "trashed" (toString b) })
  | .setPinned b => m.setAppDataItem "pinned" (toString b)
  | .setArchived b => m.setAppDataItem "archived" (toString b)
  | .setLocked b => m.setAppDataItem "locked" (toString b)
  | .setDomainDataKey key v domain => m.setDomainDataKey key v domain
  | .setAppDataItem key v => m.setAppDataItem key v
  | .addItemAsRelationship r =>
    m.mapContent (fun c =>
      if c.references.any (fun q => q.uuid == r.uuid) then c
      else { c with references := c.references ++ [r] })
  | .removeItemAsRelationship uuid =>
    m.mapContent (fun c =>
      { c with references := c.references.filter (fun q => !(q.uuid == uuid)) })

/-- Apply a sequence of mutations. -/
def applyMutations (m : ItemMutator) (ms : List Mutation) : ItemMutator :=
  ms.foldl applyMutation m

/--
`ItemMutator.getResult()`: on non-deleted payloads first maintain
`client_updated_at` (since the enum collapses both mutation types to `1`,
the user-interaction branch is the one taken), then return a copy of the
payload carrying the working content with `dirty=true` and a fresh
`dirtiedDate`.
-/
def ItemMutator.getResult (m : ItemMutator) (now : Nat) : PurePayload :=
  let m' :=
    if !m.payload.deleted then
      if m.source == MutationType.UserInteraction then
        m.setAppDataItem userModifiedDateKey (toString now)
      else
        match itemGetAppDomainValue m.item userModifiedDateKey with
        | some _ => m
        | none =>
          m.setAppDataItem userModifiedDateKey (toString m.item.payload.updated_at)
    else m
  { m'.payload with content := m'.content, dirty := true, dirtiedDate := some now }

/-!
Migration service (`packages/snjs/lib/services/migration_service.ts`).
-/

namespace Migrations

/-- A registered migration class: its name and its static `version()`. -/
structure MigrationClass where
  name : String
  version : String
deriving DecidableEq

/-- Modelled from the spec: the semver key of a version string — its
`major.minor.patch` numeric parts (missing parts read as 0).  The comparison
helpers `compareSemVersions` / `isRightVersionGreaterThanLeft` of
`@Lib/version` are not in the snapshot; the spec says migrations are
"sorted by semver". -/
def semVerKey (v : String) : Nat × Nat × Nat :=
  let ps := (v.splitOn ".").map (fun s => s.toNat?.getD 0)
  (ps.getD 0 0, ps.getD 1 0, ps.getD 2 0)

/-- Modelled from the spec: strict semver order on version strings. -/
def semVerLt (a b : String) : Bool :=
  let x := semVerKey a
  let y := semVerKey b
  x.1 < y.1 || (x.1 == y.1 && (x.2.1 < y.2.1 || (x.2.1 == y.2.1 && x.2.2 < y.2.2)))

/-- Modelled from the spec: non-strict semver order on version strings. -/
def semVerLe (a b : String) : Bool :=
  semVerLt a b || semVerKey a == semVerKey b

/-- `isRightVersionGreaterThanLeft(left, right)`. -/
def isRightVersionGreaterThanLeft (left right : String) : Bool :=
  semVerLt left right

/--
`SNMigrationService.getRequiredMigrations(storedVersion)`: sort the
registered migration classes by semver, skip the one equal to the stored
version, and keep those whose version is greater than the stored version.
-/
def getRequiredMigrations (registered : List MigrationClass)
    (storedVersion : String) : List MigrationClass :=
  let sorted :=
    List.insertionSort (fun a b => semVerLe a.version b.version = true) registered
  sorted.filter (fun m =>
    !(m.version == storedVersion) && isRightVersionGreaterThanLeft storedVersion m.version)

/-- `SNMigrationService.hasPendingMigrations()`: required migrations remain,
or the base migration reports the keychain needs repair. -/
def hasPendingMigrations (registered : List MigrationClass)
    (storedVersion : String) (needsKeychainRepair : Bool) : Bool :=
  (getRequiredMigrations registered storedVersion).length > 0 || needsKeychainRepair

end Migrations

/-!
Session manager (`SNSessionManager` source): `register` and `signIn`.
-/

namespace Session

/-- `MINIMUM_PASSWORD_LENGTH`. -/
def MINIMUM_PASSWORD_LENGTH : Nat := 8

/-- The error messages the session manager can wrap in an error response
(from `./messages`; identified by tag, wording immaterial). -/
inductive ErrorMsg where
  | InsufficientPassword
  | ParamsRequestFailed
  | FallbackLoginFail
  | UnsupportedProtocolVersion
  | ExpiredProtocolVersion
  | InvalidPasswordCost
  | UnsupportedKeyDerivation
  | StrictSignInFailed
  | ServerError
deriving DecidableEq

/-- An HTTP response as the session manager's callers see it. -/
inductive ApiResponse where
  | errorResponse (msg : ErrorMsg)
  | success
deriving DecidableEq

/-- Whether a response is an error response. -/
def ApiResponse.isError : ApiResponse → Bool
  | .errorResponse _ => true
  | .success => false

/-- Account key params as returned by the server: protocol version and the
legacy derivation cost (`content002.pw_cost`). -/
structure KeyParamsC where
  version : String
  pw_cost : Nat
deriving DecidableEq

/-- Numeric reading of a 3-digit protocol version string. -/
def versionNumber (v : String) : Nat := v.toNat?.getD 0

/-- Modelled from the spec: the protocol versions the library can operate
(`supportedVersions()` of the protocol service, not in the snapshot). -/
def supportedVersions : List String := ["001", "002", "003", "004"]

/-- Modelled from the spec: "Cost minimums only apply to now outdated
versions (001 and 002)" (`isProtocolVersionOutdated`). -/
def isProtocolVersionOutdated (v : String) : Bool :=
  v == "001" || v == "002"

/-- Modelled from the spec: version ordering is decimal string compare
(`isVersionNewerThanLibraryVersion`; the library version is 004). -/
def isVersionNewerThanLibraryVersion (v : String) : Bool :=
  versionNumber v > versionNumber "004"

/-- `leftVersionGreaterThanOrEqualToRight` of `@Lib/protocol/versions`
(modelled from the spec's decimal version ordering). -/
def leftVersionGreaterThanOrEqualToRight (a b : String) : Bool :=
  versionNumber a ≥ versionNumber b

/-- Modelled from the spec: `getLatestVersion()` is 004. -/
def latestVersion : String := "004"

/-- The protocol-service data `signIn` consults that the snapshot does not
fix: the version-specific legacy cost minimum. -/
structure ProtocolConfig where
  costMinimum : String → Nat

/-- The environment a `signIn` call runs against: the collaborator responses
it may receive along the way. -/
structure SignInEnv where
  /-- `getAccountKeyParams` answered with an error response. -/
  paramsResponseError : Bool := false
  /-- `KeyParamsFromApiResponse` result (`none` when absent). -/
  keyParams : Option KeyParamsC := none
  /-- The user's answer to the outdated-protocol confirmation alert. -/
  confirmOutdated : Bool := true
  /-- `platformSupportsKeyDerivation(keyParams)`. -/
  platformSupportsKeyDerivation : Bool := true
  /-- The final `apiService.signIn` answered with an error response. -/
  serverSignInError : Bool := false
deriving DecidableEq

/-- What a `signIn` call amounted to. -/
structure SignInResult where
  response : ApiResponse
  /-- The outdated-protocol warning alert was surfaced. -/
  warnedOutdated : Bool
  /-- The flow reached root-key computation and the server sign-in request. -/
  authAttempted : Bool
deriving DecidableEq

/-- The tail of `signIn` after the early returns: compute the root key and
issue the server sign-in request. -/
def signInAttempt (env : SignInEnv) (warned : Bool) : SignInResult :=
  ⟨if env.serverSignInError then .errorResponse .ServerError else .success,
    warned, true⟩

/-- The checks of `signIn` after the outdated-version gate: platform key
derivation support and the strict/minimum allowed version, then the
sign-in attempt. -/
def signInTail (env : SignInEnv) (kp : KeyParamsC) (strict : Bool)
    (minAllowedVersion : Option String) (warned : Bool) : SignInResult :=
  if !env.platformSupportsKeyDerivation then
    ⟨.errorResponse .UnsupportedKeyDerivation, warned, false⟩
  else
    let minAllowed := if strict then some latestVersion else minAllowedVersion
    match minAllowed with
    | some minV =>
      if !leftVersionGreaterThanOrEqualToRight kp.version minV then
        ⟨.errorResponse .StrictSignInFailed, warned, false⟩
      else
        signInAttempt env warned
    | none => signInAttempt env warned

/--
`SNSessionManager.signIn(email, password, strict, minAllowedVersion)`,
lines 164-249 of the session manager source: fetch account key params, check
version support, gate outdated versions on the legacy cost minimum and an
outdated-protocol confirmation, check platform key derivation and the
strict/minimum version, then compute the root key and sign in.
-/
def signIn (cfg : ProtocolConfig) (env : SignInEnv) (strict : Bool)
    (minAllowedVersion : Option String) : SignInResult :=
  if env.paramsResponseError then
    ⟨.errorResponse .ParamsRequestFailed, false, false⟩
  else
    match env.keyParams with
    | none => ⟨.errorResponse .FallbackLoginFail, false, false⟩
    | some kp =>
      if kp.version == "" then
        ⟨.errorResponse .FallbackLoginFail, false, false⟩
      else if !(supportedVersions.contains kp.version) then
        if isVersionNewerThanLibraryVersion kp.version then
          ⟨.errorResponse .UnsupportedProtocolVersion, false, false⟩
        else
          ⟨.errorResponse .ExpiredProtocolVersion, false, false⟩
      else
        if isProtocolVersionOutdated kp.version then
          if kp.pw_cost < cfg.costMinimum kp.version then
            ⟨.errorResponse .InvalidPasswordCost, false, false⟩
          else if !env.confirmOutdated then
            ⟨.errorResponse .FallbackLoginFail, true, false⟩
          else
            signInTail env kp strict minAllowedVersion true
        else
          signInTail env kp strict minAllowedVersion false

/-- The session-relevant state: the stored user and session token. -/
structure SessionState where
  user : Option String := none
  sessionToken : Option String := none
deriving DecidableEq

/-- The environment of a `register` call. -/
structure RegisterEnv where
  /-- `apiService.register` answered with an error response. -/
  serverError : Bool := false
  /-- The user uuid of a success response. -/
  responseUser : String := ""
  /-- The session token of a success response. -/
  responseToken : String := ""
deriving DecidableEq

/-- What a `register` call amounted to. -/
structure RegisterResult where
  response : ApiResponse
  /-- The registration request was issued to the server. -/
  requestIssued : Bool
  state : SessionState
deriving DecidableEq

/--
`SNSessionManager.register(email, password)`, lines 134-162 of the session
manager source: a password shorter than `MINIMUM_PASSWORD_LENGTH` returns an
error response at once; otherwise a root key is created and the registration
request issued, and on success `handleSuccessAuthResponse` stores the user
and the session.
-/
def register (st : SessionState) (_email password : String) (env : RegisterEnv) :
    RegisterResult :=
  if password.length < MINIMUM_PASSWORD_LENGTH then
    ⟨.errorResponse .InsufficientPassword, false, st⟩
  else if env.serverError then
    ⟨.errorResponse .ServerError, true, st⟩
  else
    ⟨.success, true, ⟨some env.responseUser, some env.responseToken⟩⟩

end Session

/-!
Concrete inputs used by the counterexamples and witnesses below.
-/

/-- A non-deleted note whose server update time is 1500000000000 ms. -/
def exIntegrityItem : SNItem :=
  { payload := { uuid := "i1", content_type := "Note", updated_at := 1500000000000 } }

/-- A local note payload that failed to decrypt. -/
def exErroredLocal : SNItem :=
  { payload := { uuid := "n1", content_type := "Note", errorDecrypting := true } }

/-- A healthy incoming copy of the same note. -/
def exErroredIncoming : SNItem :=
  { payload := { uuid := "n1", content_type := "Note" } }

/-- Note content with one reference. -/
def exContentWithRef : ItemContent :=
  { references := [⟨"r1", "Note"⟩], appData := [], fields := [("title", "t")] }

/-- The same note content without the reference. -/
def exContentNoRef : ItemContent :=
  { references := [], appData := [], fields := [("title", "t")] }

/-- A local note carrying `exContentWithRef`. -/
def exRefLocal : SNItem :=
  { payload := { uuid := "n2", content_type := "Note", content := some exContentWithRef } }

/-- An incoming note differing from `exRefLocal` only in its references. -/
def exRefIncoming : SNItem :=
  { payload := { uuid := "n2", content_type := "Note", content := some exContentNoRef } }

/-- A master items key that decrypts successfully. -/
def exMasterKey : PurePayload :=
  { uuid := "k1", content_type := "SN|ItemsKey" }

/-- An incoming copy of the same items key that failed to decrypt. -/
def exIncomingKey : PurePayload :=
  { uuid := "k1", content_type := "SN|ItemsKey", errorDecrypting := true }

/-- A master collection holding only `exMasterKey`. -/
def exMasterCollection : Collection := ⟨[exMasterKey]⟩

/-- A sync configuration whose initial sync has not completed. -/
def exConfigNoInitial : SyncManager.SyncConfig :=
  { completedInitialSync := false }

/-- A sync configuration ready for a default-mode sync. -/
def exConfigReady : SyncManager.SyncConfig := {}

/-- A sync configuration whose server answers a 500 error response. -/
def exConfigServerError : SyncManager.SyncConfig :=
  { serverErrorStatus := some 500 }

/-- A dirty item that is deleted and has never been synced. -/
def exNeverSyncedDeleted : SNItem :=
  { payload :=
      { uuid := "d1", content_type := "Note", dirty := true, deleted := true,
        updated_at := 0 } }

/-- A dirty note that has been synced before. -/
def exDirtySynced : SNItem :=
  { payload :=
      { uuid := "d2", content_type := "Note", dirty := true, updated_at := 5 } }

/-- A rejected payload whose uuid has a decrypted counterpart. -/
def exRejected : PurePayload :=
  { uuid := "u1", content_type := "Note", dirty := true }

/-- The decrypted counterpart held under source `DecryptedTransient`. -/
def exDecryptedCounterpart : PurePayload :=
  { uuid := "u1", content_type := "Note", content := some exContentNoRef, dirty := true }

/-- A rejected payload with no decrypted counterpart. -/
def exRejectedOrphan : PurePayload :=
  { uuid := "u2", content_type := "Note", dirty := true }

/-- The related collection of decrypted counterparts. -/
def exRelatedCollection : Collection := ⟨[exDecryptedCounterpart]⟩

/-- A protocol configuration with legacy cost minimum 3000. -/
def exProtocolConfig : Session.ProtocolConfig := ⟨fun _ => 3000⟩

/-- Key params of an outdated 002 account whose cost is below the minimum. -/
def exLowCostParams : Session.KeyParamsC := ⟨"002", 101⟩

/-- Key params of an outdated 002 account whose cost meets the minimum. -/
def exOkCostParams : Session.KeyParamsC := ⟨"002", 101000⟩

/-- A sign-in environment answering `exLowCostParams`. -/
def exLowCostEnv : Session.SignInEnv := { keyParams := some exLowCostParams }

/-- A sign-in environment answering `exOkCostParams` where the user declines
the outdated-protocol warning. -/
def exDeclineEnv : Session.SignInEnv :=
  { keyParams := some exOkCostParams, confirmOutdated := false }

/-- A sign-in environment answering `exOkCostParams` where the user confirms
the outdated-protocol warning. -/
def exConfirmEnv : Session.SignInEnv := { keyParams := some exOkCostParams }

/-- A stored session of an existing signed-in user. -/
def exSessionState : Session.SessionState := ⟨some "user-0", some "token-0"⟩

/-- A registration environment whose server would answer success. -/
def exRegisterEnv : Session.RegisterEnv := { responseUser := "user-1", responseToken := "t1" }

/-!
Helper lemmas.
-/

/-- Writing a binding into the undecryptables record makes it readable back. -/
theorem recordLookup_recordSet (r : List (String × PurePayload)) (u : String)
    (p : PurePayload) : recordLookup (recordSet r u p) u = some p := by
  induction r with
  | nil => simp [recordSet, recordLookup]
  | cons e rest ih =>
    by_cases h : e.1 == u
    · simp [recordSet, h, recordLookup]
    · simp only [recordSet, h, if_false, Bool.false_eq_true]
      simp only [recordLookup, List.find?] at ih ⊢
      simp [h, ih]

/-- No setter of the mutator touches the item it was built from. -/
theorem applyMutation_item (m : ItemMutator) (mu : Mutation) :
    (applyMutation m mu).item = m.item := by
  cases mu <;>
    simp only [applyMutation, ItemMutator.mapContent, ItemMutator.setAppDataItem,
      ItemMutator.setDomainDataKey] <;>
    repeat' first
    | rfl
    | split

/-- No mutation sequence touches the item the mutator was built from. -/
theorem applyMutations_item (m : ItemMutator) (ms : List Mutation) :
    (applyMutations m ms).item = m.item := by
  induction ms generalizing m with
  | nil => rfl
  | cons mu rest ih =>
    calc (applyMutations m (mu :: rest)).item
        = (applyMutations (applyMutation m mu) rest).item := rfl
      _ = (applyMutation m mu).item := ih _
      _ = m.item := applyMutation_item m mu

/-!
Claim theorems.
-/

/-- Claim C10: for every email and every password shorter than 8 characters,
`SNSessionManager.register` returns an error response immediately, without
issuing a registration request to the server and without changing user or
session state. -/
theorem register_shortPassword_rejected (st : Session.SessionState)
    (email password : String) (env : Session.RegisterEnv)
    (h : password.length < Session.MINIMUM_PASSWORD_LENGTH) :
    Session.register st email password env =
      ⟨.errorResponse .InsufficientPassword, false, st⟩ := by
  simp [Session.register, h]

/-- Witness for C10 at a concrete five-character password. -/
theorem register_shortPassword_rejected_witness :
    "short".length < Session.MINIMUM_PASSWORD_LENGTH ∧
    Session.register exSessionState "e@x.com" "short" exRegisterEnv =
      ⟨.errorResponse .InsufficientPassword, false, exSessionState⟩ :=
  ⟨by decide,
    register_shortPassword_rejected exSessionState "e@x.com" "short" exRegisterEnv
      (by decide)⟩

/-- Claim C7: for every item and every sequence of mutations applied through
an `ItemMutator`, `getResult` returns a new payload whose `dirty` field is
true and whose `dirtiedDate` is freshly set at the time of the call, leaving
the item the mutator was built from untouched (all updates go to the
mutator's working copies). -/
theorem itemMutator_getResult_dirty (item : SNItem) (src : Nat)
    (ms : List Mutation) (now : Nat) :
    ((applyMutations (ItemMutator.init item src) ms).getResult now).dirty = true ∧
    ((applyMutations (ItemMutator.init item src) ms).getResult now).dirtiedDate =
      some now ∧
    (applyMutations (ItemMutator.init item src) ms).item = item :=
  ⟨rfl, rfl, applyMutations_item _ ms⟩

/-- Claim C3: when an incoming `SN|ItemsKey` payload arrives with
`errorDecrypting=true` while the current master copy decrypts successfully,
the incoming payload is routed into the ignored set, the master collection is
unchanged, and persisting the ignored keys stores the incoming raw payload in
the undecryptable-items record under its uuid. -/
theorem ignoredItemsKey_preserved (master : Collection)
    (record : List (String × PurePayload)) (incoming current : PurePayload)
    (hct : incoming.content_type = itemsKeyContentType)
    (herr : incoming.errorDecrypting = true)
    (hcur : master.findPayload incoming.uuid = some current)
    (hdec : current.errorDecrypting = false) :
    (emitPayloads master [incoming]).ignored = [incoming] ∧
    (emitPayloads master [incoming]).collection = master ∧
    (emitPayloads master [incoming]).merged = [] ∧
    recordLookup
      (saveToUndecryptables record (emitPayloads master [incoming]).ignored)
      incoming.uuid = some incoming := by
  have hstep : emitPayloads master [incoming] =
      { collection := master, merged := [], ignored := [incoming] } := by
    simp [emitPayloads, hct, herr, hcur, hdec]
  refine ⟨by rw [hstep], by rw [hstep], by rw [hstep], ?_⟩
  rw [hstep]
  simpa [saveToUndecryptables] using recordLookup_recordSet record incoming.uuid incoming

/-- Witness for C3 at a concrete master items key and errored arrival. -/
theorem ignoredItemsKey_preserved_witness :
    exIncomingKey.content_type = itemsKeyContentType ∧
    exIncomingKey.errorDecrypting = true ∧
    exMasterCollection.findPayload exIncomingKey.uuid = some exMasterKey ∧
    exMasterKey.errorDecrypting = false ∧
    (emitPayloads exMasterCollection [exIncomingKey]).ignored = [exIncomingKey] ∧
    (emitPayloads exMasterCollection [exIncomingKey]).collection = exMasterCollection ∧
    recordLookup
      (saveToUndecryptables [] (emitPayloads exMasterCollection [exIncomingKey]).ignored)
      exIncomingKey.uuid = some exIncomingKey := by
  have h := ignoredItemsKey_preserved exMasterCollection [] exIncomingKey exMasterKey
    (by decide) (by decide) (by decide) (by decide)
  exact ⟨by decide, by decide, by decide, by decide, h.1, h.2.1, h.2.2.2⟩

/-- The rejected-payload result always carries `dirty=false` and a fresh
`lastSyncEnd`. -/
theorem rejectedCounterpart_fields (related : Collection) (now : Nat)
    (p : PurePayload) :
    (rejectedCounterpart related now p).dirty = false ∧
    (rejectedCounterpart related now p).lastSyncEnd = some now := by
  cases h : related.findPayload p.uuid <;> simp [rejectedCounterpart, h]

/-- When every rejected payload has a decrypted counterpart, the delta's loop
maps each one to its re-sourced counterpart. -/
theorem deltaRemoteRejectedResults_ok (related : Collection) (now : Nat)
    (apply : List PurePayload)
    (h : ∀ p ∈ apply, (related.findPayload p.uuid).isSome = true) :
    deltaRemoteRejectedResults related now apply =
      .ok (apply.map (rejectedCounterpart related now)) := by
  induction apply with
  | nil => rfl
  | cons p rest ih =>
    obtain ⟨d, hd⟩ := Option.isSome_iff_exists.mp (h p (List.mem_cons_self p rest))
    have hr := ih (fun q hq => h q (List.mem_cons_of_mem p hq))
    simp [deltaRemoteRejectedResults, hd, hr, rejectedCounterpart]

/-- When some rejected payload has no decrypted counterpart, the delta's loop
throws the bare string. -/
theorem deltaRemoteRejectedResults_err (related : Collection) (now : Nat)
    (apply : List PurePayload)
    (h : ∃ p ∈ apply, related.findPayload p.uuid = none) :
    deltaRemoteRejectedResults related now apply = .error noCounterpartMsg := by
  induction apply with
  | nil => simp at h
  | cons p rest ih =>
    rcases h with ⟨q, hq, hnone⟩
    rcases List.mem_cons.mp hq with rfl | hmem
    · simp [deltaRemoteRejectedResults, hnone]
    · cases hfp : related.findPayload p.uuid with
      | none => simp [deltaRemoteRejectedResults, hfp]
      | some d =>
        have hrest := ih ⟨q, hmem, hnone⟩
        simp [deltaRemoteRejectedResults, hfp, hrest]

/-- Claim C6: `DeltaRemoteRejected.resultingCollection` re-sources every
rejected payload from its decrypted counterpart with `dirty=false` and
`lastSyncEnd` set to the current time; when a rejected payload has no
decrypted counterpart it throws a bare string instead of returning a
collection. -/
theorem deltaRemoteRejected_resultingCollection_spec (apply : List PurePayload)
    (related : Collection) (now : Nat) :
    ((∀ p ∈ apply, (related.findPayload p.uuid).isSome = true) →
      deltaRemoteRejectedResultingCollection apply related now =
        .ok ⟨apply.map (rejectedCounterpart related now), .RemoteRejected⟩ ∧
      ∀ q ∈ apply.map (rejectedCounterpart related now),
        q.dirty = false ∧ q.lastSyncEnd = some now) ∧
    ((∃ p ∈ apply, related.findPayload p.uuid = none) →
      deltaRemoteRejectedResultingCollection apply related now =
        .error noCounterpartMsg) := by
  constructor
  · intro h
    refine ⟨?_, ?_⟩
    · simp [deltaRemoteRejectedResultingCollection,
        deltaRemoteRejectedResults_ok related now apply h]
    · intro q hq
      rcases List.mem_map.mp hq with ⟨p, _, rfl⟩
      exact rejectedCounterpart_fields related now p
  · intro h
    simp [deltaRemoteRejectedResultingCollection,
      deltaRemoteRejectedResults_err related now apply h]

/-- Witness for C6: a rejected payload with a counterpart is re-sourced, and
an orphan rejected payload makes the delta throw. -/
theorem deltaRemoteRejected_resultingCollection_spec_witness :
    deltaRemoteRejectedResultingCollection [exRejected] exRelatedCollection 99 =
      .ok ⟨[{ exDecryptedCounterpart with lastSyncEnd := some 99, dirty := false }],
        .RemoteRejected⟩ ∧
    deltaRemoteRejectedResultingCollection [exRejectedOrphan] exRelatedCollection 99 =
      .error noCounterpartMsg := by
  have hok :=
    ((deltaRemoteRejected_resultingCollection_spec [exRejected] exRelatedCollection 99).1
      (by decide)).1
  have herr :=
    (deltaRemoteRejected_resultingCollection_spec [exRejectedOrphan]
      exRelatedCollection 99).2 (by decide)
  exact ⟨by rw [hok]; rfl, herr⟩

/-- Counterexample to C2 as stated: a locally errored item yields
`KeepLeftDuplicateRight`, not `KeepLeft`. -/
theorem strategy_erroredLocal_counterexample :
    strategyWhenConflictingWithItem exErroredLocal exErroredIncoming =
      ConflictStrategy.KeepLeftDuplicateRight ∧
    strategyWhenConflictingWithItem exErroredLocal exErroredIncoming ≠
      ConflictStrategy.KeepLeft := by
  decide

/-- Claim C2 (amended): `strategyWhenConflictingWithItem` selects
`KeepLeftDuplicateRight` when the local item is locally errored;
`KeepLeft` when it is a singleton (and not errored); `KeepRight` when either
side is deleted or the contents are equal ignoring `conflict_of` and
`client_updated_at`; `KeepLeftMergeRefs` when the contents differ only in the
references array; and `KeepLeftDuplicateRight` when they differ in any other
key. -/
theorem strategyWhenConflicting_cases (a b : SNItem) :
    (a.payload.errorDecrypting = true →
      strategyWhenConflictingWithItem a b = .KeepLeftDuplicateRight) ∧
    (a.payload.errorDecrypting = false → a.isSingleton = true →
      strategyWhenConflictingWithItem a b = .KeepLeft) ∧
    (a.payload.errorDecrypting = false → a.isSingleton = false →
      (a.payload.deleted = true ∨ b.payload.deleted = true) →
      strategyWhenConflictingWithItem a b = .KeepRight) ∧
    (a.payload.errorDecrypting = false → a.isSingleton = false →
      a.payload.deleted = false → b.payload.deleted = false →
      ItemContentsEqualFn a.contentObject b.contentObject
        [ "conflict_of" ] [ "client_updated_at" ] = true →
      strategyWhenConflictingWithItem a b = .KeepRight) ∧
    (a.payload.errorDecrypting = false → a.isSingleton = false →
      a.payload.deleted = false → b.payload.deleted = false →
      ItemContentsEqualFn a.contentObject b.contentObject
        [ "conflict_of" ] [ "client_updated_at" ] = false →
      ItemContentsEqualFn a.contentObject b.contentObject
        [ "conflict_of", "references" ] [ "client_updated_at" ] = true →
      strategyWhenConflictingWithItem a b = .KeepLeftMergeRefs) ∧
    (a.payload.errorDecrypting = false → a.isSingleton = false →
      a.payload.deleted = false → b.payload.deleted = false →
      ItemContentsEqualFn a.contentObject b.contentObject
        [ "conflict_of" ] [ "client_updated_at" ] = false →
      ItemContentsEqualFn a.contentObject b.contentObject
        [ "conflict_of", "references" ] [ "client_updated_at" ] = false →
      strategyWhenConflictingWithItem a b = .KeepLeftDuplicateRight) := by
  refine ⟨?_, ?_, ?_, ?_, ?_, ?_⟩ <;>
    intro h1 <;>
    simp_all [strategyWhenConflictingWithItem, ItemContentsDiffer,
      contentKeysToIgnoreWhenCheckingEquality,
      appDataContentKeysToIgnoreWhenCheckingEquality, userModifiedDateKey]

/-- Witness for C2 (amended) at items differing only in their references. -/
theorem strategyWhenConflicting_cases_witness :
    exRefLocal.payload.errorDecrypting = false ∧
    exRefLocal.isSingleton = false ∧
    exRefLocal.payload.deleted = false ∧
    exRefIncoming.payload.deleted = false ∧
    ItemContentsEqualFn exRefLocal.contentObject exRefIncoming.contentObject
      [ "conflict_of" ] [ "client_updated_at" ] = false ∧
    ItemContentsEqualFn exRefLocal.contentObject exRefIncoming.contentObject
      [ "conflict_of", "references" ] [ "client_updated_at" ] = true ∧
    strategyWhenConflictingWithItem exRefLocal exRefIncoming =
      ConflictStrategy.KeepLeftMergeRefs :=
  ⟨by decide, by decide, by decide, by decide, by decide, by decide,
    (strategyWhenConflicting_cases exRefLocal exRefIncoming).2.2.2.2.1
      (by decide) (by decide) (by decide) (by decide) (by decide) (by decide)⟩

/-- Claim C5: every item that is dirty at pre-flight and is both deleted and
never synced is excluded from the payloads handed to the sync operation, and
after the operation completes it is re-emitted and persisted with
`dirty=false`. -/
theorem sync_neverSyncedDeleted_cleared (cfg : SyncManager.SyncConfig)
    (items : List SNItem) (ts mode : Option Nat)
    (up cl : List PurePayload) (ev : List SyncManager.SyncEvent)
    (hok : SyncManager.sync cfg items ts mode = .ok (.completed up cl ev)) :
    (∀ p ∈ up, ¬(p.deleted = true ∧ p.updated_at = 0)) ∧
    (∀ i ∈ items, i.payload.dirty = true → i.payload.deleted = true →
      i.payload.updated_at = 0 → { i.payload with dirty := false } ∈ cl) := by
  simp only [SyncManager.sync] at hok
  split at hok
  · simp at hok
  · split at hok
    · split at hok
      · simp at hok
      · split at hok
        · simp at hok
        · simp at hok
    · split at hok
      · simp at hok
      · simp only [Except.ok.injEq, SyncManager.SyncOutcome.completed.injEq] at hok
        obtain ⟨hup, hcl, _⟩ := hok
        constructor
        · intro p hp
          rw [← hup] at hp
          rintro ⟨hdel, hua⟩
          split at hp
          · rcases List.mem_map.mp hp with ⟨i, hi, rfl⟩
            have hpred := (List.mem_filter.mp hi).2
            simp [SNItem.neverSynced, hdel, hua] at hpred
          · simp at hp
        · intro i hi hdirty hdel hua
          rw [← hcl]
          refine List.mem_map.mpr ⟨i, ?_, rfl⟩
          refine List.mem_filter.mpr ⟨List.mem_filter.mpr ⟨hi, hdirty⟩, ?_⟩
          simp [SNItem.neverSynced, hdel, hua]

/-- Witness for C5: a completed sync with one never-synced deleted dirty
item uploads nothing containing it and clears it. -/
theorem sync_neverSyncedDeleted_cleared_witness :
    SyncManager.sync exConfigReady [exNeverSyncedDeleted, exDirtySynced] none none =
      .ok (.completed [exDirtySynced.payload]
        [{ exNeverSyncedDeleted.payload with dirty := false }]
        [.SingleSyncCompleted, .FullSyncCompleted]) ∧
    { exNeverSyncedDeleted.payload with dirty := false } ∈
      [{ exNeverSyncedDeleted.payload with dirty := false }] := by
  have h := sync_neverSyncedDeleted_cleared exConfigReady
    [exNeverSyncedDeleted, exDirtySynced] none none
    [exDirtySynced.payload] [{ exNeverSyncedDeleted.payload with dirty := false }]
    [.SingleSyncCompleted, .FullSyncCompleted] rfl
  exact ⟨rfl,
    (h.2 exNeverSyncedDeleted (by simp) rfl rfl rfl)⟩

/-- Counterexample to C4 as stated: a default-mode sync attempted before the
initial sync has completed throws a bare string past the sync boundary. -/
theorem sync_throws_counterexample :
    SyncManager.sync exConfigNoInitial [] none none =
      .error SyncManager.defaultBeforeInitialMsg := rfl

/-- Claim C4 (amended): a sync operation propagates an exception exactly when
it is invoked with an unhandled timing strategy while a sync is in progress
or the database is not loaded, or when a default-mode sync is attempted
before the initial sync completed; server error responses are captured and
surfaced as a `SyncError` event instead of being thrown. -/
theorem sync_error_characterization (cfg : SyncManager.SyncConfig)
    (items : List SNItem) (ts mode : Option Nat) :
    ((∃ e, SyncManager.sync cfg items ts mode = .error e) ↔
      (cfg.locked = false ∧
        (((cfg.syncInProgress || !cfg.databaseLoaded) = true ∧
            ts.getD SyncManager.TIMING_STRATEGY_RESOLVE_ON_NEXT ≠
              SyncManager.TIMING_STRATEGY_RESOLVE_ON_NEXT ∧
            ts.getD SyncManager.TIMING_STRATEGY_RESOLVE_ON_NEXT ≠
              SyncManager.TIMING_STRATEGY_FORCE_SPAWN_NEW) ∨
          ((cfg.syncInProgress || !cfg.databaseLoaded) = false ∧
            mode.getD SyncManager.SYNC_MODE_DEFAULT = SyncManager.SYNC_MODE_DEFAULT ∧
            cfg.completedInitialSync = false)))) ∧
    (∀ up cl ev status,
      SyncManager.sync cfg items ts mode = .ok (.completed up cl ev) →
      cfg.serverErrorStatus = some status →
      SyncManager.SyncEvent.SyncError ∈ ev) := by
  constructor
  · by_cases hlk : cfg.locked = true
    · simp [SyncManager.sync, hlk]
    · have hlk' : cfg.locked = false := by simpa using hlk
      by_cases hbusy : (cfg.syncInProgress || !cfg.databaseLoaded) = true
      · by_cases h1 : ts.getD SyncManager.TIMING_STRATEGY_RESOLVE_ON_NEXT =
            SyncManager.TIMING_STRATEGY_RESOLVE_ON_NEXT
        · simp [SyncManager.sync, hlk', hbusy, h1]
        · by_cases h2 : ts.getD SyncManager.TIMING_STRATEGY_RESOLVE_ON_NEXT =
              SyncManager.TIMING_STRATEGY_FORCE_SPAWN_NEW
          · simp [SyncManager.sync, hlk', hbusy, h1, h2]
          · simp [SyncManager.sync, hlk', hbusy, h1, h2]
      · have hbusy' : (cfg.syncInProgress || !cfg.databaseLoaded) = false := by
          simpa using hbusy
        by_cases hm : mode.getD SyncManager.SYNC_MODE_DEFAULT =
            SyncManager.SYNC_MODE_DEFAULT
        · by_cases hci : cfg.completedInitialSync = true
          · simp [SyncManager.sync, hlk', hbusy', hm, hci]
          · have hci' : cfg.completedInitialSync = false := by simpa using hci
            simp [SyncManager.sync, hlk', hbusy', hm, hci']
        · simp [SyncManager.sync, hlk', hbusy', hm]
  · intro up cl ev status hok hst
    simp only [SyncManager.sync] at hok
    split at hok
    · simp at hok
    · split at hok
      · split at hok
        · simp at hok
        · split at hok
          · simp at hok
          · simp at hok
      · split at hok
        · simp at hok
        · simp only [Except.ok.injEq, SyncManager.SyncOutcome.completed.injEq] at hok
          obtain ⟨_, _, hev⟩ := hok
          rw [← hev]
          simp only [SyncManager.responseEvents, hst]
          by_cases h401 : status == SyncManager.INVALID_SESSION_RESPONSE_STATUS <;>
            simp [h401]

/-- Witness for C4 (amended), conjunct two: a completed sync against a server
answering a 500 error surfaces a `SyncError` event. -/
theorem sync_error_characterization_witness :
    SyncManager.sync exConfigServerError [] none none =
      .ok (.completed [] [] [.SyncError, .FullSyncCompleted]) ∧
    exConfigServerError.serverErrorStatus = some 500 ∧
    SyncManager.SyncEvent.SyncError ∈
      [SyncManager.SyncEvent.SyncError, SyncManager.SyncEvent.FullSyncCompleted] :=
  ⟨rfl, rfl,
    (sync_error_characterization exConfigServerError [] none none).2
      [] [] [.SyncError, .FullSyncCompleted] 500 rfl rfl⟩

/-- Counterexample to C1 as stated: at one non-deleted item the code hashes
the millisecond string while the spec's digest hashes the microsecond
string, and the two SHA-256 digests differ. -/
theorem integrityHash_counterexample :
    SyncManager.computeDataIntegrityHash [exIntegrityItem] ≠
      SyncManager.specIntegrityHash [exIntegrityItem] := by
  decide

/-- Claim C1 (amended): `computeDataIntegrityHash` returns the SHA-256
digest of the comma-joined `updated_at` timestamps, expressed as MILLISECOND
strings (`Date.getTime()`), of the non-deleted items sorted in descending
`updated_at` order. -/
theorem computeDataIntegrityHash_msStrings (items : List SNItem) :
    SyncManager.computeDataIntegrityHash items =
      Sha256.sha256 (String.intercalate ","
        ((List.insertionSort (fun a b : Nat => b ≤ a)
            ((items.filter (fun i => !i.payload.deleted)).map
              SNItem.updatedAtTimestamp)).map (fun d => toString d))) := by
  have key : ∀ l : List SNItem,
      (List.insertionSort (fun a b => SyncManager.integrityItemLe a b = true) l).map
          SNItem.updatedAtTimestamp =
        List.insertionSort (fun a b : Nat => b ≤ a)
          (l.map SNItem.updatedAtTimestamp) := by
    intro l
    haveI : IsTrans Nat (fun a b => b ≤ a) := ⟨fun _ _ _ h1 h2 => Nat.le_trans h2 h1⟩
    haveI : IsAntisymm Nat (fun a b => b ≤ a) := ⟨fun _ _ h1 h2 => Nat.le_antisymm h2 h1⟩
    haveI : IsTotal Nat (fun a b => b ≤ a) := ⟨fun a b => Nat.le_total b a⟩
    haveI : IsTrans SNItem (fun a b => SyncManager.integrityItemLe a b = true) :=
      ⟨fun a b c h1 h2 => by
        simp only [SyncManager.integrityItemLe, decide_eq_true_eq] at h1 h2 ⊢
        omega⟩
    haveI : IsTotal SNItem (fun a b => SyncManager.integrityItemLe a b = true) :=
      ⟨fun a b => by
        simp only [SyncManager.integrityItemLe, decide_eq_true_eq]
        omega⟩
    refine List.eq_of_perm_of_sorted (r := fun a b : Nat => b ≤ a) ?_ ?_ ?_
    · exact ((List.perm_insertionSort _ l).map _).trans
        (List.perm_insertionSort _ _).symm
    · exact List.Pairwise.map _
        (fun a b h => by
          simpa [SyncManager.integrityItemLe, SNItem.updatedAtTimestamp] using h)
        (List.sorted_insertionSort _ l)
    · exact List.sorted_insertionSort _ _
  simp only [SyncManager.computeDataIntegrityHash,
    SyncManager.computeDataIntegrityHashInput]
  rw [key]

/-- Strict semver order is irreflexive. -/
theorem semVerLt_self (v : String) : Migrations.semVerLt v v = false := by
  rw [Bool.eq_false_iff]
  intro h
  simp only [Migrations.semVerLt, Bool.or_eq_true, Bool.and_eq_true,
    decide_eq_true_eq, beq_iff_eq] at h
  omega

/-- Non-strict semver order is transitive. -/
theorem semVerLe_trans {a b c : String} (h1 : Migrations.semVerLe a b = true)
    (h2 : Migrations.semVerLe b c = true) : Migrations.semVerLe a c = true := by
  simp only [Migrations.semVerLe, Migrations.semVerLt, Bool.or_eq_true,
    Bool.and_eq_true, decide_eq_true_eq, beq_iff_eq, Prod.ext_iff] at h1 h2 ⊢
  omega

/-- Non-strict semver order is total. -/
theorem semVerLe_total (a b : String) :
    Migrations.semVerLe a b = true ∨ Migrations.semVerLe b a = true := by
  simp only [Migrations.semVerLe, Migrations.semVerLt, Bool.or_eq_true,
    Bool.and_eq_true, decide_eq_true_eq, beq_iff_eq, Prod.ext_iff]
  omega

/-- Claim C8: `getRequiredMigrations` returns exactly the registered
migration classes whose version is strictly semver-greater than the stored
version, sorted in ascending semver order; and `hasPendingMigrations` is
true iff that set is non-empty or the keychain needs repair. -/
theorem getRequiredMigrations_spec (registered : List Migrations.MigrationClass)
    (stored : String) (repair : Bool) :
    (Migrations.getRequiredMigrations registered stored).Perm
      (registered.filter
        (fun m => Migrations.isRightVersionGreaterThanLeft stored m.version)) ∧
    List.Sorted
      (fun a b : Migrations.MigrationClass =>
        Migrations.semVerLe a.version b.version = true)
      (Migrations.getRequiredMigrations registered stored) ∧
    (Migrations.hasPendingMigrations registered stored repair = true ↔
      Migrations.getRequiredMigrations registered stored ≠ [] ∨ repair = true) := by
  haveI : IsTrans Migrations.MigrationClass
      (fun a b => Migrations.semVerLe a.version b.version = true) :=
    ⟨fun _ _ _ h1 h2 => semVerLe_trans h1 h2⟩
  haveI : IsTotal Migrations.MigrationClass
      (fun a b => Migrations.semVerLe a.version b.version = true) :=
    ⟨fun a b => semVerLe_total a.version b.version⟩
  have hfc : ∀ l : List Migrations.MigrationClass,
      l.filter (fun m =>
        !(m.version == stored) &&
          Migrations.isRightVersionGreaterThanLeft stored m.version) =
      l.filter (fun m => Migrations.isRightVersionGreaterThanLeft stored m.version) := by
    intro l
    refine List.filter_congr (fun m _ => ?_)
    by_cases h : m.version == stored
    · have hms : m.version = stored := by simpa using h
      have : Migrations.isRightVersionGreaterThanLeft stored m.version = false := by
        rw [hms, Migrations.isRightVersionGreaterThanLeft, semVerLt_self]
      simp [h, this]
    · simp [h]
  refine ⟨?_, ?_, ?_⟩
  · rw [Migrations.getRequiredMigrations, hfc]
    exact (List.perm_insertionSort _ registered).filter _
  · rw [Migrations.getRequiredMigrations]
    exact List.Pairwise.filter _ (List.sorted_insertionSort _ registered)
  · simp [Migrations.hasPendingMigrations, List.length_pos]

/-- The outdated-protocol warning survives every branch after the gate. -/
theorem signInTail_warnedOutdated (env : Session.SignInEnv)
    (kp : Session.KeyParamsC) (strict : Bool) (minV : Option String) (w : Bool) :
    (Session.signInTail env kp strict minV w).warnedOutdated = w := by
  cases strict <;> cases minV <;>
    simp only [Session.signInTail, Session.signInAttempt] <;>
    repeat' first
    | rfl
    | split

/-- Claim C9: for every sign-in against an account whose key params version
is outdated (001 or 002): a legacy cost below the version minimum returns an
error response without attempting authentication; otherwise the
outdated-protocol warning is surfaced, a decline returns an error response,
and a confirmation lets the sign-in proceed to the authentication attempt. -/
theorem signIn_outdatedProtocol (cfg : Session.ProtocolConfig)
    (env : Session.SignInEnv) (strict : Bool) (minV : Option String)
    (kp : Session.KeyParamsC)
    (hparams : env.paramsResponseError = false)
    (hkp : env.keyParams = some kp)
    (hout : Session.isProtocolVersionOutdated kp.version = true) :
    (kp.pw_cost < cfg.costMinimum kp.version →
      Session.signIn cfg env strict minV =
        ⟨.errorResponse .InvalidPasswordCost, false, false⟩) ∧
    (cfg.costMinimum kp.version ≤ kp.pw_cost → env.confirmOutdated = false →
      Session.signIn cfg env strict minV =
        ⟨.errorResponse .FallbackLoginFail, true, false⟩) ∧
    (cfg.costMinimum kp.version ≤ kp.pw_cost → env.confirmOutdated = true →
      (Session.signIn cfg env strict minV).warnedOutdated = true ∧
      (env.platformSupportsKeyDerivation = true → strict = false → minV = none →
        (Session.signIn cfg env strict minV).authAttempted = true)) := by
  have hv : kp.version = "001" ∨ kp.version = "002" := by
    simpa [Session.isProtocolVersionOutdated] using hout
  have hne : (kp.version == "") = false := by
    rcases hv with h | h <;> simp [h]
  have hsup : Session.supportedVersions.contains kp.version = true := by
    rcases hv with h | h <;> simp [h, Session.supportedVersions]
  have hmem : kp.version ∈ Session.supportedVersions := by
    rcases hv with h | h <;> simp [h, Session.supportedVersions]
  refine ⟨?_, ?_, ?_⟩
  · intro hlow
    simp [Session.signIn, hparams, hkp, hne, hsup, hmem, hout, hlow]
  · intro hge hdecl
    have hnl : ¬(kp.pw_cost < cfg.costMinimum kp.version) := by omega
    simp [Session.signIn, hparams, hkp, hne, hsup, hmem, hout, hnl, hdecl]
  · intro hge hconf
    have hnl : ¬(kp.pw_cost < cfg.costMinimum kp.version) := by omega
    have hred : Session.signIn cfg env strict minV =
        Session.signInTail env kp strict minV true := by
      simp [Session.signIn, hparams, hkp, hne, hsup, hmem, hout, hnl, hconf]
    constructor
    · rw [hred]
      exact signInTail_warnedOutdated env kp strict minV true
    · intro hplat hstrict hminv
      rw [hred]
      simp [Session.signInTail, hplat, hstrict, hminv, Session.signInAttempt]

/-- Witness for C9 at a 002 account: low cost rejected without auth, decline
rejected after the warning, confirmation proceeds to the auth attempt. -/
theorem signIn_outdatedProtocol_witness :
    Session.signIn exProtocolConfig exLowCostEnv false none =
      ⟨.errorResponse .InvalidPasswordCost, false, false⟩ ∧
    Session.signIn exProtocolConfig exDeclineEnv false none =
      ⟨.errorResponse .FallbackLoginFail, true, false⟩ ∧
    (Session.signIn exProtocolConfig exConfirmEnv false none).warnedOutdated = true ∧
    (Session.signIn exProtocolConfig exConfirmEnv false none).authAttempted = true := by
  have h1 := (signIn_outdatedProtocol exProtocolConfig exLowCostEnv false none
    exLowCostParams rfl rfl (by decide)).1 (by decide)
  have h2 := (signIn_outdatedProtocol exProtocolConfig exDeclineEnv false none
    exOkCostParams rfl rfl (by decide)).2.1 (by decide) rfl
  have h3 := (signIn_outdatedProtocol exProtocolConfig exConfirmEnv false none
    exOkCostParams rfl rfl (by decide)).2.2 (by decide) rfl
  exact ⟨h1, h2, h3.1, h3.2 rfl rfl rfl⟩

end Snjs
